import Mathlib

/-!
Verification of the phoenix-bot trading loop against its specification.

The definitions below are a shallow embedding of the TypeScript source:
the candlestick buffer and its mutators from src/rsi.ts, the indicator
pipeline from src/rsi.ts, the reconnect supervisor state machine from
src/rsi.ts, and one iteration of the trading cycle from src/run.ts.
JavaScript numbers are modelled as rationals, timestamps as integers,
and the NaN sentinel as the none case of an Option.
-/

namespace PhoenixBot

/-- A candlestick record as built by candleStickFromAPIData and
candleSticksFromWSData in src/rsi.ts. -/
structure CandleStick where
  openTime : ℤ
  closeTime : ℤ
  openPrice : ℚ
  closePrice : ℚ
  highPrice : ℚ
  lowPrice : ℚ
deriving DecidableEq, Repr

/-- Helper to build a candlestick whose only relevant datum is its open time. -/
def mkC (t : ℤ) : CandleStick :=
  { openTime := t, closeTime := t, openPrice := 0, closePrice := 0
    highPrice := 0, lowPrice := 0 }

/-- The buffer capacity MAX_CANDLE_STICKS_LENGTH from src/rsi.ts. -/
def MAX_CANDLE_STICKS_LENGTH : ℕ := 200

/-- The addCandleStick function of src/rsi.ts. The mutable global array
candleSticks is passed explicitly; the function returns the new array
together with the boolean the source returns. An empty buffer accepts
any candle; otherwise the candle is rejected when the last openTime is
greater than or equal to the new openTime, and on overflow past the
capacity the head of the array is shifted off. -/
def addCandleStick : List CandleStick → CandleStick → List CandleStick × Bool
  | [], c => ([c], true)
  | a :: rest, c =>
    if c.openTime ≤ ((a :: rest).getLast (List.cons_ne_nil a rest)).openTime then
      (a :: rest, false)
    else
      let pushed := (a :: rest) ++ [c]
      if MAX_CANDLE_STICKS_LENGTH < pushed.length then (pushed.tail, true)
      else (pushed, true)

/-- The strict openTime ordering on adjacent buffer entries. -/
def OpenTimeSorted (l : List CandleStick) : Prop :=
  List.Chain' (fun x y => x.openTime < y.openTime) l

instance instDecOpenTimeSorted : (l : List CandleStick) → Decidable (OpenTimeSorted l)
  | [] => isTrue List.chain'_nil
  | [a] => isTrue (List.chain'_singleton a)
  | a :: b :: rest =>
      match instDecOpenTimeSorted (b :: rest) with
      | isTrue h =>
          if hab : a.openTime < b.openTime then
            isTrue (List.chain'_cons.mpr ⟨hab, h⟩)
          else isFalse (fun hc => hab (List.chain'_cons.mp hc).1)
      | isFalse h => isFalse (fun hc => h (List.chain'_cons.mp hc).2)

lemma addCandleStick_cons (a : CandleStick) (rest : List CandleStick) (c : CandleStick) :
    addCandleStick (a :: rest) c =
      if c.openTime ≤ ((a :: rest).getLast (List.cons_ne_nil a rest)).openTime then
        (a :: rest, false)
      else
        if MAX_CANDLE_STICKS_LENGTH < ((a :: rest) ++ [c]).length then
          (((a :: rest) ++ [c]).tail, true)
        else ((a :: rest) ++ [c], true) := rfl

/-- The merge performed by initFirstCandleSticks in src/rsi.ts, with the
fetched batch passed explicitly. On the first seed the final (possibly
still open) bar of the batch is popped; on a subsequent seed the batch
is filtered to candles whose openTime is strictly greater than the
openTime of the earliest retained candle and the survivors are
prepended to the existing buffer. -/
def seedCandleSticks : List CandleStick → List CandleStick → List CandleStick
  | [], apiCandles => apiCandles.dropLast
  | first :: rest, apiCandles =>
      apiCandles.filter (fun c => first.openTime < c.openTime) ++ (first :: rest)

/-- C1: an append onto a strictly increasing buffer of size at most 200 is
rejected with the buffer unchanged when the new openTime is at most the
tail openTime; otherwise it is accepted, strict ordering is preserved, the
size stays at most 200, and on overflow exactly the oldest entry is
evicted. -/
theorem addCandleStick_ordering_bound (buf : List CandleStick) (c : CandleStick)
    (hchain : OpenTimeSorted buf)
    (hlen : buf.length ≤ MAX_CANDLE_STICKS_LENGTH) :
    ((∃ t ∈ buf.getLast?, c.openTime ≤ t.openTime) →
        addCandleStick buf c = (buf, false)) ∧
    ((∀ t ∈ buf.getLast?, t.openTime < c.openTime) →
        (addCandleStick buf c).2 = true ∧
        OpenTimeSorted (addCandleStick buf c).1 ∧
        (addCandleStick buf c).1.length ≤ MAX_CANDLE_STICKS_LENGTH ∧
        (buf.length < MAX_CANDLE_STICKS_LENGTH →
          (addCandleStick buf c).1 = buf ++ [c]) ∧
        (buf.length = MAX_CANDLE_STICKS_LENGTH →
          (addCandleStick buf c).1 = buf.tail ++ [c])) := by
  cases buf with
  | nil =>
      constructor
      · rintro ⟨t, ht, -⟩
        simp at ht
      · intro h
        refine ⟨rfl, ?_, ?_, ?_, ?_⟩
        · exact List.chain'_singleton c
        · show (1 : ℕ) ≤ MAX_CANDLE_STICKS_LENGTH
          decide
        · intro _; rfl
        · intro h0; exact absurd h0 (by decide)
  | cons a rest =>
      have hne : (a :: rest) ≠ [] := List.cons_ne_nil a rest
      have hlast : (a :: rest).getLast? = some ((a :: rest).getLast hne) :=
        List.getLast?_eq_getLast_of_ne_nil hne
      constructor
      · rintro ⟨t, ht, hle⟩
        rw [hlast] at ht
        simp only [Option.mem_def, Option.some.injEq] at ht
        subst ht
        rw [addCandleStick_cons, if_pos hle]
      · intro h
        have hlt : ((a :: rest).getLast hne).openTime < c.openTime := by
          apply h
          rw [hlast]; rfl
        have hnle : ¬ c.openTime ≤ ((a :: rest).getLast hne).openTime :=
          not_le.mpr hlt
        have hchain2 : OpenTimeSorted ((a :: rest) ++ [c]) := by
          unfold OpenTimeSorted at hchain ⊢
          rw [List.chain'_append]
          refine ⟨hchain, List.chain'_singleton c, ?_⟩
          intro x hx y hy
          rw [hlast] at hx
          simp only [Option.mem_def, Option.some.injEq] at hx
          simp only [List.head?_cons, Option.mem_def, Option.some.injEq] at hy
          subst hx; subst hy
          exact hlt
        have hplen : ((a :: rest) ++ [c]).length = (a :: rest).length + 1 := by
          simp
        rcases lt_or_eq_of_le hlen with hsmall | hfull
        · have hnover : ¬ MAX_CANDLE_STICKS_LENGTH < ((a :: rest) ++ [c]).length := by
            omega
          rw [addCandleStick_cons, if_neg hnle, if_neg hnover]
          dsimp only
          refine ⟨rfl, hchain2, by simpa using hsmall, fun _ => rfl, fun h0 => ?_⟩
          omega
        · have hover : MAX_CANDLE_STICKS_LENGTH < ((a :: rest) ++ [c]).length := by
            omega
          rw [addCandleStick_cons, if_neg hnle, if_pos hover]
          dsimp only
          refine ⟨rfl, ?_, ?_, fun h0 => ?_, fun _ => ?_⟩
          · exact List.Chain'.tail hchain2
          · have : ((a :: rest) ++ [c]).tail.length = (a :: rest).length := by
              simp
            omega
          · omega
          · simp

/-- Witness for C1 at a concrete buffer: appending openTime 3 after
openTimes 1, 2 succeeds and extends the buffer. -/
theorem addCandleStick_ordering_bound_witness :
    (addCandleStick [mkC 1, mkC 2] (mkC 3)).1 = [mkC 1, mkC 2] ++ [mkC 3] := by
  have h := (addCandleStick_ordering_bound [mkC 1, mkC 2] (mkC 3)
      (by decide) (by decide)).2 (by decide)
  exact h.2.2.2.1 (by decide)

/-- C10: an append onto the empty buffer accepts the candle unconditionally
and returns true, with no constraint on its openTime. -/
theorem addCandleStick_empty_accepts (c : CandleStick) :
    addCandleStick [] c = ([c], true) := rfl

/-- C3 counterexample: re-seeding the buffer that holds openTime 10 with a
fetched batch holding openTime 11 keeps the strictly newer candle and
prepends it, so the merged buffer is openTime 11 followed by openTime 10,
whose openTime sequence is not non-decreasing: the invariant the claim
asserts is violated. -/
theorem seedCandleSticks_order_violation :
    seedCandleSticks [mkC 10] [mkC 11] = [mkC 11, mkC 10] ∧
    ¬ List.Chain' (fun x y : CandleStick => x.openTime ≤ y.openTime)
        (seedCandleSticks [mkC 10] [mkC 11]) := by
  refine ⟨rfl, fun h => ?_⟩
  have h2 : (mkC 11).openTime ≤ (mkC 10).openTime := (List.chain'_cons.mp h).1
  have : ¬ ((11 : ℤ) ≤ 10) := by decide
  exact this h2

/-- C3 amended: a subsequent seed prepends exactly the fetched candles whose
openTime is strictly greater than the openTime of the earliest retained
candle, keeping the old buffer as the suffix; every prepended candle is
strictly newer than that earliest candle; but whenever at least one fetched
candle survives the filter, the merged buffer violates the non-decreasing
openTime invariant (and no eviction bounds its size). -/
theorem seedCandleSticks_subsequent (first : CandleStick)
    (rest api : List CandleStick) :
    seedCandleSticks (first :: rest) api
      = api.filter (fun c => first.openTime < c.openTime) ++ (first :: rest) ∧
    (∀ c ∈ api.filter (fun c => first.openTime < c.openTime),
        first.openTime < c.openTime) ∧
    ((∃ c ∈ api, first.openTime < c.openTime) →
        ¬ List.Chain' (fun x y : CandleStick => x.openTime ≤ y.openTime)
            (seedCandleSticks (first :: rest) api)) := by
  refine ⟨rfl, ?_, ?_⟩
  · intro c hc
    simp only [List.mem_filter, decide_eq_true_eq] at hc
    exact hc.2
  · rintro ⟨c, hca, hcgt⟩ hchain
    set flt := api.filter (fun c => first.openTime < c.openTime) with hflt
    have hcf : c ∈ flt := by
      rw [hflt]
      exact List.mem_filter.mpr ⟨hca, by simpa using hcgt⟩
    have hne : flt ≠ [] := List.ne_nil_of_mem hcf
    have hchain2 : List.Chain' (fun x y : CandleStick => x.openTime ≤ y.openTime)
        (flt ++ (first :: rest)) := hchain
    obtain ⟨-, -, hrel⟩ := List.chain'_append.mp hchain2
    have hlastmem : flt.getLast hne ∈ flt := List.getLast_mem hne
    have hall : ∀ x ∈ flt, first.openTime < x.openTime := by
      intro x hx
      rw [hflt] at hx
      simp only [List.mem_filter, decide_eq_true_eq] at hx
      exact hx.2
    have hlastgt : first.openTime < (flt.getLast hne).openTime :=
      hall _ hlastmem
    have hle : (flt.getLast hne).openTime ≤ first.openTime := by
      apply hrel
      · rw [List.getLast?_eq_getLast_of_ne_nil hne]; rfl
      · rfl
    exact absurd hle (not_le.mpr hlastgt)

/-- Witness for the amended C3 at a concrete buffer and batch: the survivor
openTime 7 is prepended immediately before the retained openTime 5, and the
merged buffer is not non-decreasing. -/
theorem seedCandleSticks_subsequent_witness :
    seedCandleSticks [mkC 5] [mkC 7]
      = [mkC 7].filter (fun c => (mkC 5).openTime < c.openTime) ++ [mkC 5] ∧
    ¬ List.Chain' (fun x y : CandleStick => x.openTime ≤ y.openTime)
        (seedCandleSticks [mkC 5] [mkC 7]) :=
  ⟨(seedCandleSticks_subsequent (mkC 5) [] [mkC 7]).1,
   (seedCandleSticks_subsequent (mkC 5) [] [mkC 7]).2.2
     ⟨mkC 7, List.mem_singleton.mpr rfl, by decide⟩⟩

/-- Successive differences of a price series, change i being price i+1
minus price i. -/
def priceChanges (prices : List ℚ) : List ℚ :=
  List.zipWith (fun b a => b - a) prices.tail prices

/-- Modelled from the spec: the technicalindicators RSI implementation is an
external dependency; per the spec it is standard Wilder-style RSI. This is
the average gain over the first window of changes. -/
def initialAvgGain (prices : List ℚ) (period : ℕ) : ℚ :=
  (((priceChanges prices).take period).map (fun c => max c 0)).sum / period

/-- Modelled from the spec: average loss over the first window of changes of
the Wilder-style RSI. -/
def initialAvgLoss (prices : List ℚ) (period : ℕ) : ℚ :=
  (((priceChanges prices).take period).map (fun c => max (-c) 0)).sum / period

/-- Modelled from the spec: RSI = 100 - 100/(1+RS) with RS the ratio of
average gain to average loss, saturating at 100 on zero average loss. -/
def rsiFromAvgs (avgGain avgLoss : ℚ) : ℚ :=
  if avgLoss = 0 then 100 else 100 - 100 / (1 + avgGain / avgLoss)

/-- Modelled from the spec: Wilder smoothing of a running average. -/
def wilderSmooth (period : ℕ) (avg x : ℚ) : ℚ :=
  (avg * ((period : ℚ) - 1) + x) / period

/-- Modelled from the spec: the rolling tail of the Wilder RSI series, one
output value per change past the initial window. -/
def rsiSeriesAux (period : ℕ) (avgGain avgLoss : ℚ) : List ℚ → List ℚ
  | [] => []
  | ch :: rest =>
      let ag := wilderSmooth period avgGain (max ch 0)
      let al := wilderSmooth period avgLoss (max (-ch) 0)
      rsiFromAvgs ag al :: rsiSeriesAux period ag al rest

/-- Modelled from the spec: the full Wilder RSI series over a price list;
empty when there are fewer changes than the period. -/
def rsiSeries (prices : List ℚ) (period : ℕ) : List ℚ :=
  if (priceChanges prices).length < period ∨ period = 0 then []
  else
    rsiFromAvgs (initialAvgGain prices period) (initialAvgLoss prices period)
      :: rsiSeriesAux period (initialAvgGain prices period)
          (initialAvgLoss prices period) ((priceChanges prices).drop period)

/-- Modelled from the spec: the final value of a weighted moving average of
the given window, weights 1..n. -/
def wmaValue (window : List ℚ) : ℚ :=
  (List.zipWith (fun w x => w * x)
      ((List.range window.length).map (fun i => (i + 1 : ℚ))) window).sum
    / ((List.range window.length).map (fun i => (i + 1 : ℚ))).sum

/-- Modelled from the spec: the final WMA value over the last period values
of the series, as calculateWMA of src/rsi.ts returns. -/
def lastWMA (vals : List ℚ) (period : ℕ) : ℚ :=
  wmaValue (vals.drop (vals.length - period))

/-- Modelled from the spec: the final EMA value of the series, seeded with
the simple average of the first window, as calculateEMA of src/rsi.ts
returns. -/
def lastEMA (vals : List ℚ) (period : ℕ) : ℚ :=
  (vals.drop period).foldl
    (fun e x => (x - e) * (2 / ((period : ℚ) + 1)) + e)
    ((vals.take period).sum / period)

/-- The indicator snapshot produced by calculateIndicators in src/rsi.ts;
none stands for the NaN sentinel. -/
structure IndicatorSnapshot where
  rsi : Option ℚ
  wma : Option ℚ
  ema : Option ℚ
deriving DecidableEq, Repr

/-- The calculateRSI function of src/rsi.ts: throws (none) when the buffer
holds fewer closes than the period, otherwise appends the live price tick
to the closes and returns the last RSI value together with the series. -/
def calculateRSI (closes : List ℚ) (livePrice : ℚ) (period : ℕ) :
    Option (ℚ × List ℚ) :=
  if closes.length < period then none
  else
    let vals := rsiSeries (closes ++ [livePrice]) period
    match vals.getLast? with
    | none => none
    | some r => some (r, vals)

/-- The calculateIndicators function of src/rsi.ts: on a calculateRSI fault
the catch block yields the all-NaN snapshot; otherwise WMA-45 and EMA-9 are
computed over the RSI series when it is long enough, NaN otherwise. -/
def calculateIndicators (closes : List ℚ) (livePrice : ℚ) : IndicatorSnapshot :=
  match calculateRSI closes livePrice 14 with
  | none => ⟨none, none, none⟩
  | some (r, vals) =>
      ⟨some r,
       if 45 ≤ vals.length then some (lastWMA vals 45) else none,
       if 9 ≤ vals.length then some (lastEMA vals 9) else none⟩

lemma sum_map_max_nonneg (l : List ℚ) (f : ℚ → ℚ) :
    0 ≤ (l.map (fun c => max (f c) 0)).sum := by
  apply List.sum_nonneg
  intro x hx
  obtain ⟨a, -, rfl⟩ := List.mem_map.mp hx
  exact le_max_right _ _

lemma initialAvgGain_nonneg (prices : List ℚ) (period : ℕ) :
    0 ≤ initialAvgGain prices period := by
  unfold initialAvgGain
  apply div_nonneg _ (by positivity)
  simpa using sum_map_max_nonneg ((priceChanges prices).take period) id

lemma initialAvgLoss_nonneg (prices : List ℚ) (period : ℕ) :
    0 ≤ initialAvgLoss prices period := by
  unfold initialAvgLoss
  apply div_nonneg _ (by positivity)
  simpa using sum_map_max_nonneg ((priceChanges prices).take period) (fun c => -c)

lemma rsiFromAvgs_bounds (ag al : ℚ) (hg : 0 ≤ ag) (hl : 0 ≤ al) :
    0 ≤ rsiFromAvgs ag al ∧ rsiFromAvgs ag al ≤ 100 ∧
      (al = 0 → rsiFromAvgs ag al = 100) := by
  by_cases h : al = 0
  · refine ⟨?_, ?_, fun _ => ?_⟩ <;> simp [rsiFromAvgs, h]
  · have hal : 0 < al := lt_of_le_of_ne hl (Ne.symm h)
    have hrs : 0 ≤ ag / al := div_nonneg hg hl
    have h1 : (0 : ℚ) < 1 + ag / al := by linarith
    have hle : 100 / (1 + ag / al) ≤ 100 := by
      rw [div_le_iff₀ h1]
      nlinarith
    have hpos : 0 ≤ 100 / (1 + ag / al) := by positivity
    refine ⟨?_, ?_, fun h0 => absurd h0 h⟩ <;>
      simp only [rsiFromAvgs, if_neg h] <;> linarith

/-- C7: with exactly 13 closes, calculateIndicators yields the all-NaN
snapshot; with exactly 14 closes plus one live price tick, it yields a
finite RSI value within 0 to 100 that saturates at 100 when the average
loss over the window is zero. -/
theorem calculateIndicators_rsi_boundary (closes : List ℚ) (tick : ℚ) :
    (closes.length = 13 →
        calculateIndicators closes tick = ⟨none, none, none⟩) ∧
    (closes.length = 14 →
        ∃ r, (calculateIndicators closes tick).rsi = some r ∧
          0 ≤ r ∧ r ≤ 100 ∧
          (initialAvgLoss (closes ++ [tick]) 14 = 0 → r = 100)) := by
  constructor
  · intro h
    have hlt : closes.length < 14 := by omega
    simp [calculateIndicators, calculateRSI, if_pos hlt]
  · intro h
    have hch : (priceChanges (closes ++ [tick])).length = 14 := by
      simp [priceChanges, h]
    have hvals : rsiSeries (closes ++ [tick]) 14 =
        [rsiFromAvgs (initialAvgGain (closes ++ [tick]) 14)
            (initialAvgLoss (closes ++ [tick]) 14)] := by
      unfold rsiSeries
      rw [if_neg (by omega)]
      rw [List.drop_eq_nil_of_le (by omega)]
      rfl
    have hcrsi : calculateRSI closes tick 14 =
        some (rsiFromAvgs (initialAvgGain (closes ++ [tick]) 14)
            (initialAvgLoss (closes ++ [tick]) 14),
          [rsiFromAvgs (initialAvgGain (closes ++ [tick]) 14)
            (initialAvgLoss (closes ++ [tick]) 14)]) := by
      unfold calculateRSI
      rw [if_neg (by omega)]
      simp only [hvals]
      rfl
    refine ⟨rsiFromAvgs (initialAvgGain (closes ++ [tick]) 14)
        (initialAvgLoss (closes ++ [tick]) 14), ?_, ?_, ?_, ?_⟩
    · simp [calculateIndicators, hcrsi]
    · exact (rsiFromAvgs_bounds _ _ (initialAvgGain_nonneg _ _)
        (initialAvgLoss_nonneg _ _)).1
    · exact (rsiFromAvgs_bounds _ _ (initialAvgGain_nonneg _ _)
        (initialAvgLoss_nonneg _ _)).2.1
    · exact (rsiFromAvgs_bounds _ _ (initialAvgGain_nonneg _ _)
        (initialAvgLoss_nonneg _ _)).2.2

/-- Thirteen synthetic closes, one short of the RSI period. -/
def sampleCloses13 : List ℚ := List.map (fun i => (i : ℚ)) (List.range 13)

/-- Fourteen synthetic closes, exactly the RSI period. -/
def sampleCloses14 : List ℚ := List.map (fun i => (i : ℚ)) (List.range 14)

/-- Witness for C7 at concrete close series of lengths 13 and 14. -/
theorem calculateIndicators_rsi_boundary_witness :
    calculateIndicators sampleCloses13 13 = ⟨none, none, none⟩ ∧
    ∃ r, (calculateIndicators sampleCloses14 14).rsi = some r ∧
      0 ≤ r ∧ r ≤ 100 ∧
      (initialAvgLoss (sampleCloses14 ++ [14]) 14 = 0 → r = 100) :=
  ⟨(calculateIndicators_rsi_boundary sampleCloses13 13).1 rfl,
   (calculateIndicators_rsi_boundary sampleCloses14 14).2 rfl⟩

/-- The two sides of an order, Side.Bid and Side.Ask in the source. -/
inductive TradeSide where
  | bid
  | ask
deriving DecidableEq, Repr

/-- The limit price passed to floatPriceToTicks for a sell:
currentPrice times (1 + percentage / 100). -/
def askPrice (price pct : ℚ) : ℚ := price * (1 + pct / 100)

/-- The limit price passed to floatPriceToTicks for a buy:
currentPrice times (1 - percentage / 100). -/
def bidPrice (price pct : ℚ) : ℚ := price * (1 - pct / 100)

/-- The signal policy of the trade loop in src/run.ts, lines 134-215: the
decision taken from the indicator values, mode flag, configured WMA limits,
the live price and the offset percentage. none means the continue branch
(no order this cycle). -/
def decideSignal (sideway : Bool) (rsi wma45 ema9 buyLimit sellLimit price pct : ℚ) :
    Option (TradeSide × ℚ) :=
  if 75 < rsi then some (TradeSide.ask, askPrice price pct)
  else if rsi < 25 then some (TradeSide.bid, bidPrice price pct)
  else if sideway then
    if min wma45 ema9 ≤ rsi ∧ rsi ≤ max wma45 ema9 then
      if wma45 < buyLimit then some (TradeSide.bid, bidPrice price pct)
      else none
    else if max wma45 ema9 < rsi ∧ sellLimit < wma45 then
      some (TradeSide.ask, askPrice price pct)
    else none
  else
    if wma45 < buyLimit ∧ rsi < wma45 then some (TradeSide.bid, bidPrice price pct)
    else if sellLimit < wma45 ∧ wma45 < rsi then some (TradeSide.ask, askPrice price pct)
    else none

/-- C5: the signal policy chooses exactly as specified. RSI above 75 sells
at the raised price and RSI below 25 buys at the lowered price regardless
of mode; otherwise, in range-bound mode a buy happens iff RSI lies between
WMA and EMA inclusive and WMA is below the buy limit, a sell iff RSI
exceeds both WMA and EMA and WMA exceeds the sell limit, else no action;
in trending mode a buy iff WMA is below the buy limit and RSI below WMA, a
sell iff WMA exceeds the sell limit and RSI exceeds WMA, else no action. -/
theorem decideSignal_policy (sdw : Bool)
    (rsi wma45 ema9 buyLimit sellLimit price pct : ℚ) :
    (75 < rsi →
      decideSignal sdw rsi wma45 ema9 buyLimit sellLimit price pct
        = some (TradeSide.ask, askPrice price pct)) ∧
    (rsi < 25 →
      decideSignal sdw rsi wma45 ema9 buyLimit sellLimit price pct
        = some (TradeSide.bid, bidPrice price pct)) ∧
    (25 ≤ rsi → rsi ≤ 75 → sdw = true →
      ((decideSignal sdw rsi wma45 ema9 buyLimit sellLimit price pct
          = some (TradeSide.bid, bidPrice price pct)) ↔
        (min wma45 ema9 ≤ rsi ∧ rsi ≤ max wma45 ema9 ∧ wma45 < buyLimit)) ∧
      ((decideSignal sdw rsi wma45 ema9 buyLimit sellLimit price pct
          = some (TradeSide.ask, askPrice price pct)) ↔
        (wma45 < rsi ∧ ema9 < rsi ∧ sellLimit < wma45)) ∧
      ((decideSignal sdw rsi wma45 ema9 buyLimit sellLimit price pct = none) ↔
        (¬ (min wma45 ema9 ≤ rsi ∧ rsi ≤ max wma45 ema9 ∧ wma45 < buyLimit) ∧
         ¬ (wma45 < rsi ∧ ema9 < rsi ∧ sellLimit < wma45)))) ∧
    (25 ≤ rsi → rsi ≤ 75 → sdw = false →
      ((decideSignal sdw rsi wma45 ema9 buyLimit sellLimit price pct
          = some (TradeSide.bid, bidPrice price pct)) ↔
        (wma45 < buyLimit ∧ rsi < wma45)) ∧
      ((decideSignal sdw rsi wma45 ema9 buyLimit sellLimit price pct
          = some (TradeSide.ask, askPrice price pct)) ↔
        (sellLimit < wma45 ∧ wma45 < rsi)) ∧
      ((decideSignal sdw rsi wma45 ema9 buyLimit sellLimit price pct = none) ↔
        (¬ (wma45 < buyLimit ∧ rsi < wma45) ∧
         ¬ (sellLimit < wma45 ∧ wma45 < rsi)))) := by
  refine ⟨?_, ?_, ?_, ?_⟩
  · intro h75
    simp only [decideSignal, if_pos h75]
  · intro h25
    have hn75 : ¬ 75 < rsi := by linarith
    simp only [decideSignal, if_neg hn75, if_pos h25]
  · intro hlo hhi hs
    subst hs
    have hn75 : ¬ 75 < rsi := not_lt.mpr hhi
    have hn25 : ¬ rsi < 25 := not_lt.mpr hlo
    simp only [decideSignal, if_neg hn75, if_neg hn25, if_pos rfl]
    by_cases hin : min wma45 ema9 ≤ rsi ∧ rsi ≤ max wma45 ema9
    · simp only [if_pos hin]
      have hnsell : ¬ (wma45 < rsi ∧ ema9 < rsi ∧ sellLimit < wma45) := by
        rintro ⟨h1, h2, -⟩
        exact absurd hin.2 (not_le.mpr (max_lt h1 h2))
      by_cases hb : wma45 < buyLimit
      · simp only [if_pos hb]
        refine ⟨⟨fun _ => ⟨hin.1, hin.2, hb⟩, fun _ => by trivial⟩, ?_, ?_⟩
        · constructor
          · intro hEq; simp at hEq
          · intro hS; exact absurd hS hnsell
        · constructor
          · intro hEq; simp at hEq
          · rintro ⟨hnb, -⟩; exact absurd ⟨hin.1, hin.2, hb⟩ hnb
      · simp only [if_neg hb]
        refine ⟨?_, ?_, ?_⟩
        · constructor
          · intro hEq; simp at hEq
          · rintro ⟨-, -, hb2⟩; exact absurd hb2 hb
        · constructor
          · intro hEq; simp at hEq
          · intro hS; exact absurd hS hnsell
        · exact ⟨fun _ => ⟨fun hB => hb hB.2.2, hnsell⟩, fun _ => by trivial⟩
    · simp only [if_neg hin]
      have hnbuy : ¬ (min wma45 ema9 ≤ rsi ∧ rsi ≤ max wma45 ema9 ∧ wma45 < buyLimit) := by
        rintro ⟨h1, h2, -⟩
        exact hin ⟨h1, h2⟩
      by_cases hsell : max wma45 ema9 < rsi ∧ sellLimit < wma45
      · simp only [if_pos hsell]
        have hSc : wma45 < rsi ∧ ema9 < rsi ∧ sellLimit < wma45 :=
          ⟨lt_of_le_of_lt (le_max_left _ _) hsell.1,
           lt_of_le_of_lt (le_max_right _ _) hsell.1, hsell.2⟩
        refine ⟨?_, ⟨fun _ => hSc, fun _ => by trivial⟩, ?_⟩
        · constructor
          · intro hEq; simp at hEq
          · intro hB; exact absurd hB hnbuy
        · constructor
          · intro hEq; simp at hEq
          · rintro ⟨-, hns⟩; exact absurd hSc hns
      · simp only [if_neg hsell]
        have hnsell2 : ¬ (wma45 < rsi ∧ ema9 < rsi ∧ sellLimit < wma45) := by
          rintro ⟨h1, h2, h3⟩
          exact hsell ⟨max_lt h1 h2, h3⟩
        refine ⟨?_, ?_, ⟨fun _ => ⟨hnbuy, hnsell2⟩, fun _ => by trivial⟩⟩
        · constructor
          · intro hEq; simp at hEq
          · intro hB; exact absurd hB hnbuy
        · constructor
          · intro hEq; simp at hEq
          · intro hS; exact absurd hS hnsell2
  · intro hlo hhi hs
    subst hs
    have hn75 : ¬ 75 < rsi := not_lt.mpr hhi
    have hn25 : ¬ rsi < 25 := not_lt.mpr hlo
    simp only [decideSignal, if_neg hn75, if_neg hn25, Bool.false_eq_true,
      if_false]
    by_cases hbuy : wma45 < buyLimit ∧ rsi < wma45
    · simp only [if_pos hbuy]
      have hnsell : ¬ (sellLimit < wma45 ∧ wma45 < rsi) := by
        rintro ⟨-, h2⟩
        exact absurd hbuy.2 (not_lt.mpr h2.le)
      refine ⟨⟨fun _ => hbuy, fun _ => by trivial⟩, ?_, ?_⟩
      · constructor
        · intro hEq; simp at hEq
        · intro hS; exact absurd hS hnsell
      · constructor
        · intro hEq; simp at hEq
        · rintro ⟨hnb, -⟩; exact absurd hbuy hnb
    · simp only [if_neg hbuy]
      by_cases hsell : sellLimit < wma45 ∧ wma45 < rsi
      · simp only [if_pos hsell]
        refine ⟨?_, ⟨fun _ => hsell, fun _ => by trivial⟩, ?_⟩
        · constructor
          · intro hEq; simp at hEq
          · intro hB; exact absurd hB hbuy
        · constructor
          · intro hEq; simp at hEq
          · rintro ⟨-, hns⟩; exact absurd hsell hns
      · simp only [if_neg hsell]
        refine ⟨?_, ?_, ⟨fun _ => ⟨hbuy, hsell⟩, fun _ => by trivial⟩⟩
        · constructor
          · intro hEq; simp at hEq
          · intro hB; exact absurd hB hbuy
        · constructor
          · intro hEq; simp at hEq
          · intro hS; exact absurd hS hsell

/-- Witness for C5: a concrete overbought snapshot yields the sell signal
at the raised limit price, and a concrete trending-mode snapshot with WMA
below the buy limit and RSI below WMA yields the buy signal. -/
theorem decideSignal_policy_witness :
    decideSignal true 80 50 50 45 55 100 1
      = some (TradeSide.ask, askPrice 100 1) ∧
    decideSignal false 40 44 50 45 55 100 1
      = some (TradeSide.bid, bidPrice 100 1) :=
  ⟨(decideSignal_policy true 80 50 50 45 55 100 1).1 (by norm_num),
   ((decideSignal_policy false 40 44 50 45 55 100 1).2.2.2
      (by norm_num) (by norm_num) rfl).1.mpr ⟨by norm_num, by norm_num⟩⟩

/-- The per-instance closure state of initCandleStickWS or initPriceWS in
src/rsi.ts: the reconnectAttempts counter and the reconnecting flag. -/
structure SupervisorState where
  reconnectAttempts : ℕ
  reconnecting : Bool
deriving DecidableEq, Repr

/-- The events a supervisor instance reacts to: a subscription failure
(close, error, or a rejected candle) invoking reconnect, the backoff timer
firing, and the socket open handler. -/
inductive SupEvent where
  | subFail
  | timerDone
  | connOpen
deriving DecidableEq, Repr

/-- One step of the supervisor closure of src/rsi.ts: reconnect is a no-op
while the reconnecting flag is set, otherwise it increments the attempt
counter and schedules a resubscribe after min(1000 * attempts, 30000)
milliseconds (the returned Option); the timer callback clears the flag;
the open handler zeroes the attempt counter. -/
def supervisorStep (s : SupervisorState) : SupEvent → SupervisorState × Option ℕ
  | SupEvent.subFail =>
      if s.reconnecting then (s, none)
      else ({ reconnectAttempts := s.reconnectAttempts + 1, reconnecting := true },
            some (min (1000 * (s.reconnectAttempts + 1)) 30000))
  | SupEvent.timerDone => ({ s with reconnecting := false }, none)
  | SupEvent.connOpen => ({ s with reconnectAttempts := 0 }, none)

/-- C6: a failure while the flag is clear schedules the k-th resubscribe
after min(1000 ms times k, 30000 ms) where k is the new attempt count; a
failure while the flag is set neither schedules nor changes anything, so
resubscribe attempts of one instance never overlap; and the open handler
resets the attempt counter to zero. -/
theorem supervisorStep_backoff (s : SupervisorState) :
    (s.reconnecting = false →
      supervisorStep s SupEvent.subFail
        = ({ reconnectAttempts := s.reconnectAttempts + 1, reconnecting := true },
           some (min (1000 * (s.reconnectAttempts + 1)) 30000))) ∧
    (s.reconnecting = true →
      supervisorStep s SupEvent.subFail = (s, none)) ∧
    (supervisorStep s SupEvent.connOpen).1.reconnectAttempts = 0 := by
  refine ⟨?_, ?_, rfl⟩
  · intro h
    simp [supervisorStep, h]
  · intro h
    simp [supervisorStep, h]

/-- Witness for C6: three consecutive failures with the timer firing in
between are scheduled after 1000 ms, 2000 ms and 3000 ms; a failure while
reconnecting is a no-op; a deep attempt count is capped at 30000 ms; and
the open handler resets the counter. -/
theorem supervisorStep_backoff_witness :
    supervisorStep ⟨0, false⟩ SupEvent.subFail = (⟨1, true⟩, some 1000) ∧
    supervisorStep ⟨1, false⟩ SupEvent.subFail = (⟨2, true⟩, some 2000) ∧
    supervisorStep ⟨2, false⟩ SupEvent.subFail = (⟨3, true⟩, some 3000) ∧
    supervisorStep ⟨50, false⟩ SupEvent.subFail = (⟨51, true⟩, some 30000) ∧
    supervisorStep ⟨3, true⟩ SupEvent.subFail = (⟨3, true⟩, none) ∧
    (supervisorStep ⟨7, true⟩ SupEvent.connOpen).1.reconnectAttempts = 0 := by
  refine ⟨?_, ?_, ?_, ?_, ?_, ?_⟩
  · rw [(supervisorStep_backoff ⟨0, false⟩).1 rfl]; decide
  · rw [(supervisorStep_backoff ⟨1, false⟩).1 rfl]; decide
  · rw [(supervisorStep_backoff ⟨2, false⟩).1 rfl]; decide
  · rw [(supervisorStep_backoff ⟨50, false⟩).1 rfl]; decide
  · exact (supervisorStep_backoff ⟨3, true⟩).2.1 rfl
  · exact (supervisorStep_backoff ⟨7, true⟩).2.2

/-- The calculateMinimumOrderVolume function of src/functions.ts: one base
lot valued at the current price, inflated by five percent. -/
def calculateMinimumOrderVolume (baseLotSize baseDecimals : ℕ)
    (currentPrice : ℚ) : ℚ :=
  ((baseLotSize : ℚ) / 10 ^ baseDecimals) * currentPrice * (105 / 100)

/-- The data one iteration of the trade loop of src/run.ts reads: the
indicator snapshot (none is the NaN sentinel), the configuration, the live
price, the market header parameters, the lot counts the SDK conversion
helpers return, the balances checkUserBalance returns, and whether the
wrapToken call would succeed. -/
structure CycleInput where
  rsi : Option ℚ
  wma45 : Option ℚ
  ema9 : Option ℚ
  sideway : Bool
  WMAlimitBuy : ℚ
  WMAlimitSell : ℚ
  currentPrice : ℚ
  percentage : ℚ
  volume : ℚ
  baseLotSize : ℕ
  quoteLotSize : ℕ
  baseDecimals : ℕ
  quoteDecimals : ℕ
  numBaseLots : ℕ
  numQuoteLots : ℕ
  solBalance : ℚ
  baseWalletBalance : ℚ
  quoteWalletBalance : ℚ
  wrapSucceeds : Bool
deriving DecidableEq, Repr

/-- requiredQuoteBalance of src/run.ts: numQuoteLots times quoteLotSize,
scaled down by the quote decimals. -/
def requiredQuoteBalance (inp : CycleInput) : ℚ :=
  ((inp.numQuoteLots : ℚ) * inp.quoteLotSize) / 10 ^ inp.quoteDecimals

/-- requiredBaseBalance of src/run.ts: numBaseLots times baseLotSize,
scaled down by the base decimals. -/
def requiredBaseBalance (inp : CycleInput) : ℚ :=
  ((inp.numBaseLots : ℚ) * inp.baseLotSize) / 10 ^ inp.baseDecimals

/-- The externally visible actions of one iteration of the trade loop of
src/run.ts, in program order. minVolumeExit models the process.exit(0)
call; balanceCheck models the checkUserBalance call; wrap models the
wrapToken call with the wrapped amount; the skip actions model the
cooldown-and-continue branches. -/
inductive Action where
  | skipIndicators
  | noSignal
  | minVolumeExit
  | zeroLotSkip
  | balanceCheck
  | insufficientQuoteSkip
  | wrap (amount : ℚ)
  | wrapFailSkip
  | insufficientSolSkip
  | submit (side : TradeSide) (lots : ℕ) (price : ℚ)
deriving DecidableEq, Repr

/-- The side-specific fund check of src/run.ts (lines 276-343): a bid needs
free quote balance at least the required quote value; an ask with a base
shortfall wraps exactly the shortfall when the SOL balance covers it (then
submits directly, or skips when the wrap throws), and skips without
wrapping when SOL does not cover the shortfall. -/
def fundCheckPhase (inp : CycleInput) (side : TradeSide) (px : ℚ) : List Action :=
  match side with
  | TradeSide.bid =>
      if inp.quoteWalletBalance < requiredQuoteBalance inp then
        [Action.insufficientQuoteSkip]
      else [Action.submit TradeSide.bid inp.numQuoteLots px]
  | TradeSide.ask =>
      if inp.baseWalletBalance < requiredBaseBalance inp then
        if requiredBaseBalance inp - inp.baseWalletBalance ≤ inp.solBalance then
          if inp.wrapSucceeds then
            [Action.wrap (requiredBaseBalance inp - inp.baseWalletBalance),
             Action.submit TradeSide.ask inp.numBaseLots px]
          else
            [Action.wrap (requiredBaseBalance inp - inp.baseWalletBalance),
             Action.wrapFailSkip]
        else [Action.insufficientSolSkip]
      else [Action.submit TradeSide.ask inp.numBaseLots px]

/-- One iteration of the trade loop of src/run.ts after the order
reconciliation phase, as the ordered list of its externally visible
actions: the NaN sentinel guard, the signal policy, the minimum-volume
check (which calls process.exit), the zero-lot check, the balance fetch,
and the side-specific fund check leading to submission. -/
def tradeIteration (inp : CycleInput) : List Action :=
  match inp.rsi, inp.wma45, inp.ema9 with
  | some rsi, some wma45, some ema9 =>
      match decideSignal inp.sideway rsi wma45 ema9 inp.WMAlimitBuy
          inp.WMAlimitSell inp.currentPrice inp.percentage with
      | none => [Action.noSignal]
      | some (side, px) =>
          if inp.volume < calculateMinimumOrderVolume inp.baseLotSize
              inp.baseDecimals inp.currentPrice then
            [Action.minVolumeExit]
          else if inp.numBaseLots = 0 ∨ inp.numQuoteLots = 0 then
            [Action.zeroLotSkip]
          else
            Action.balanceCheck :: fundCheckPhase inp side px
  | _, _, _ => [Action.skipIndicators]

/-- C4: when any indicator field is the NaN sentinel, the iteration only
sleeps and restarts: it performs no sizing, no balance check, no wrap and
no submission. -/
theorem tradeIteration_sentinel_skip (inp : CycleInput)
    (h : inp.rsi = none ∨ inp.wma45 = none ∨ inp.ema9 = none) :
    tradeIteration inp = [Action.skipIndicators] := by
  rcases hr : inp.rsi with _ | r
  · simp [tradeIteration, hr]
  · rcases hw : inp.wma45 with _ | w
    · simp [tradeIteration, hr, hw]
    · rcases he : inp.ema9 with _ | e
      · simp [tradeIteration, hr, hw, he]
      · simp_all

/-- A concrete cycle input with an overbought snapshot (RSI 80, ask signal)
whose configured volume 1/10 is below the minimum order volume 21/20. -/
def cIn2 : CycleInput :=
  { rsi := some 80, wma45 := some 50, ema9 := some 50, sideway := true
    WMAlimitBuy := 45, WMAlimitSell := 55, currentPrice := 1, percentage := 0
    volume := 1 / 10, baseLotSize := 1, quoteLotSize := 1, baseDecimals := 0
    quoteDecimals := 0, numBaseLots := 1, numQuoteLots := 1, solBalance := 0
    baseWalletBalance := 0, quoteWalletBalance := 0, wrapSucceeds := true }

/-- The cycle input cIn2 with the NaN sentinel in the RSI field. -/
def cIn4 : CycleInput := { cIn2 with rsi := none }

/-- The cycle input cIn2 with adequate volume but a zero base lot count and
a non-zero quote lot count. -/
def cIn9 : CycleInput := { cIn2 with volume := 2, numBaseLots := 0, numQuoteLots := 5 }

/-- A concrete ask-side cycle input with adequate volume and lots, a base
shortfall of 3/2 (required 5, held 7/2), SOL balance 2 covering it, and a
succeeding wrap. -/
def cIn8 : CycleInput :=
  { cIn2 with volume := 2, numBaseLots := 5, numQuoteLots := 5
              baseWalletBalance := 7 / 2, solBalance := 2 }

/-- Witness for C4: the all-sentinel input only sleeps and restarts. -/
theorem tradeIteration_sentinel_skip_witness :
    tradeIteration cIn4 = [Action.skipIndicators] :=
  tradeIteration_sentinel_skip cIn4 (Or.inl rfl)

/-- C2 counterexample: with volume 1/10 below the minimum order volume
21/20, the iteration reaches the minimum-volume branch, which executes
process.exit(0) (the minVolumeExit action): the cycle is not merely
skipped, the process is terminated, refuting the non-fatality part of the
claim. -/
theorem tradeIteration_minVolume_terminates :
    cIn2.volume < calculateMinimumOrderVolume cIn2.baseLotSize
        cIn2.baseDecimals cIn2.currentPrice ∧
    tradeIteration cIn2 = [Action.minVolumeExit] := by
  constructor
  · norm_num [cIn2, calculateMinimumOrderVolume]
  · norm_num [tradeIteration, cIn2, decideSignal, askPrice,
      calculateMinimumOrderVolume]

/-- C2 amended: a volume below the minimum order volume is rejected after
the signal evaluates but before any balance check or submission; the
rejection is fatal: the iteration consists of the single process-exiting
action. -/
theorem tradeIteration_minVolume_fatal (inp : CycleInput) (r w e : ℚ)
    (sd : TradeSide) (px : ℚ)
    (hr : inp.rsi = some r) (hw : inp.wma45 = some w) (he : inp.ema9 = some e)
    (hsig : decideSignal inp.sideway r w e inp.WMAlimitBuy inp.WMAlimitSell
        inp.currentPrice inp.percentage = some (sd, px))
    (hvol : inp.volume < calculateMinimumOrderVolume inp.baseLotSize
        inp.baseDecimals inp.currentPrice) :
    tradeIteration inp = [Action.minVolumeExit] ∧
    Action.balanceCheck ∉ tradeIteration inp ∧
    (∀ s l p, Action.submit s l p ∉ tradeIteration inp) := by
  have htr : tradeIteration inp = [Action.minVolumeExit] := by
    simp [tradeIteration, hr, hw, he, hsig, if_pos hvol]
  refine ⟨htr, ?_, ?_⟩
  · rw [htr]; simp
  · intro s l p; rw [htr]; simp

/-- Witness for the amended C2 at the concrete input cIn2. -/
theorem tradeIteration_minVolume_fatal_witness :
    tradeIteration cIn2 = [Action.minVolumeExit] ∧
    Action.balanceCheck ∉ tradeIteration cIn2 :=
  have h := tradeIteration_minVolume_fatal cIn2 80 50 50 TradeSide.ask
    (askPrice 1 0) rfl rfl rfl (by norm_num [cIn2, decideSignal])
    (by norm_num [cIn2, calculateMinimumOrderVolume])
  ⟨h.1, h.2.1⟩

/-- C9 counterexample: at an input whose quote lot count is 5 (non-zero)
but whose base lot count is 0, the iteration takes the zero-lot fault
branch and never reaches the fund check, although the claim says a single
non-zero lot count suffices to proceed. -/
theorem tradeIteration_zeroLot_mismatch :
    cIn9.numQuoteLots ≠ 0 ∧
    ¬ cIn9.volume < calculateMinimumOrderVolume cIn9.baseLotSize
        cIn9.baseDecimals cIn9.currentPrice ∧
    tradeIteration cIn9 = [Action.zeroLotSkip] ∧
    Action.balanceCheck ∉ tradeIteration cIn9 := by
  have htr : tradeIteration cIn9 = [Action.zeroLotSkip] := by
    norm_num [tradeIteration, cIn9, cIn2, decideSignal, askPrice,
      calculateMinimumOrderVolume]
  refine ⟨by norm_num [cIn9, cIn2], ?_, htr, ?_⟩
  · norm_num [cIn9, cIn2, calculateMinimumOrderVolume]
  · rw [htr]; simp

/-- C9 amended: past the minimum-volume check, the iteration treats sizing
as a fault exactly when at least one of the two lot counts is zero; the
fund check is reached only when both lot counts are non-zero. -/
theorem tradeIteration_zeroLot_gate (inp : CycleInput) (r w e : ℚ)
    (sd : TradeSide) (px : ℚ)
    (hr : inp.rsi = some r) (hw : inp.wma45 = some w) (he : inp.ema9 = some e)
    (hsig : decideSignal inp.sideway r w e inp.WMAlimitBuy inp.WMAlimitSell
        inp.currentPrice inp.percentage = some (sd, px))
    (hvol : ¬ inp.volume < calculateMinimumOrderVolume inp.baseLotSize
        inp.baseDecimals inp.currentPrice) :
    (tradeIteration inp = [Action.zeroLotSkip] ↔
      (inp.numBaseLots = 0 ∨ inp.numQuoteLots = 0)) ∧
    (inp.numBaseLots ≠ 0 → inp.numQuoteLots ≠ 0 →
      Action.balanceCheck ∈ tradeIteration inp) := by
  by_cases hz : inp.numBaseLots = 0 ∨ inp.numQuoteLots = 0
  · have htr : tradeIteration inp = [Action.zeroLotSkip] := by
      simp [tradeIteration, hr, hw, he, hsig, if_neg hvol, if_pos hz]
    refine ⟨⟨fun _ => hz, fun _ => htr⟩, ?_⟩
    intro hb hq
    rcases hz with hz | hz
    · exact absurd hz hb
    · exact absurd hz hq
  · have htr : tradeIteration inp
        = Action.balanceCheck :: fundCheckPhase inp sd px := by
      simp [tradeIteration, hr, hw, he, hsig, if_neg hvol, if_neg hz]
    refine ⟨⟨fun hEq => ?_, fun hz2 => absurd hz2 hz⟩, fun _ _ => ?_⟩
    · rw [htr] at hEq
      exact absurd (List.head_eq_of_cons_eq hEq) (by decide)
    · rw [htr]
      exact List.mem_cons_self _ _

/-- Witness for the amended C9 at the concrete input cIn9. -/
theorem tradeIteration_zeroLot_gate_witness :
    tradeIteration cIn9 = [Action.zeroLotSkip] :=
  (tradeIteration_zeroLot_gate cIn9 80 50 50 TradeSide.ask (askPrice 1 0)
    rfl rfl rfl (by norm_num [cIn9, cIn2, decideSignal])
    (by norm_num [cIn9, cIn2, calculateMinimumOrderVolume])).1.mpr (Or.inl rfl)

/-- C8 counterexample: at an ask-side input with base shortfall 3/2 and SOL
balance 2 covering it, the iteration wraps the shortfall and then submits
immediately: the complete action trace holds no balance re-check between
the wrap and the submission, refuting the claim that sufficiency is
re-checked before submission after the wrap. -/
theorem tradeIteration_wrap_no_recheck :
    cIn8.baseWalletBalance < requiredBaseBalance cIn8 ∧
    requiredBaseBalance cIn8 - cIn8.baseWalletBalance ≤ cIn8.solBalance ∧
    tradeIteration cIn8 = [Action.balanceCheck, Action.wrap (3 / 2),
      Action.submit TradeSide.ask 5 (askPrice 1 0)] ∧
    (∀ a ∈ (tradeIteration cIn8).drop 2, a ≠ Action.balanceCheck) := by
  have htr : tradeIteration cIn8 = [Action.balanceCheck, Action.wrap (3 / 2),
      Action.submit TradeSide.ask 5 (askPrice 1 0)] := by
    norm_num [tradeIteration, fundCheckPhase, cIn8, cIn2, decideSignal,
      askPrice, calculateMinimumOrderVolume, requiredBaseBalance]
  refine ⟨?_, ?_, htr, ?_⟩
  · norm_num [cIn8, cIn2, requiredBaseBalance]
  · norm_num [cIn8, cIn2, requiredBaseBalance]
  · rw [htr]; simp

/-- C8 amended: on an ask iteration with a base shortfall, when the SOL
balance covers the shortfall exactly one wrap of exactly the shortfall is
attempted and, if the wrap succeeds, the order is submitted directly with
no re-check of sufficiency (a failing wrap skips submission); when the SOL
balance does not cover the shortfall, no wrap is attempted and submission
is skipped. -/
theorem tradeIteration_wrap_fallback (inp : CycleInput) (r w e px : ℚ)
    (hr : inp.rsi = some r) (hw : inp.wma45 = some w) (he : inp.ema9 = some e)
    (hsig : decideSignal inp.sideway r w e inp.WMAlimitBuy inp.WMAlimitSell
        inp.currentPrice inp.percentage = some (TradeSide.ask, px))
    (hvol : ¬ inp.volume < calculateMinimumOrderVolume inp.baseLotSize
        inp.baseDecimals inp.currentPrice)
    (hb : inp.numBaseLots ≠ 0) (hq : inp.numQuoteLots ≠ 0)
    (hshort : inp.baseWalletBalance < requiredBaseBalance inp) :
    (requiredBaseBalance inp - inp.baseWalletBalance ≤ inp.solBalance →
      inp.wrapSucceeds = true →
      tradeIteration inp = [Action.balanceCheck,
        Action.wrap (requiredBaseBalance inp - inp.baseWalletBalance),
        Action.submit TradeSide.ask inp.numBaseLots px]) ∧
    (requiredBaseBalance inp - inp.baseWalletBalance ≤ inp.solBalance →
      inp.wrapSucceeds = false →
      tradeIteration inp = [Action.balanceCheck,
        Action.wrap (requiredBaseBalance inp - inp.baseWalletBalance),
        Action.wrapFailSkip]) ∧
    (inp.solBalance < requiredBaseBalance inp - inp.baseWalletBalance →
      tradeIteration inp = [Action.balanceCheck, Action.insufficientSolSkip]) := by
  have hz : ¬ (inp.numBaseLots = 0 ∨ inp.numQuoteLots = 0) := by
    rintro (h | h)
    · exact hb h
    · exact hq h
  have htr : tradeIteration inp
      = Action.balanceCheck :: fundCheckPhase inp TradeSide.ask px := by
    simp [tradeIteration, hr, hw, he, hsig, if_neg hvol, if_neg hz]
  have hfc : fundCheckPhase inp TradeSide.ask px =
      if inp.baseWalletBalance < requiredBaseBalance inp then
        if requiredBaseBalance inp - inp.baseWalletBalance ≤ inp.solBalance then
          if inp.wrapSucceeds then
            [Action.wrap (requiredBaseBalance inp - inp.baseWalletBalance),
             Action.submit TradeSide.ask inp.numBaseLots px]
          else
            [Action.wrap (requiredBaseBalance inp - inp.baseWalletBalance),
             Action.wrapFailSkip]
        else [Action.insufficientSolSkip]
      else [Action.submit TradeSide.ask inp.numBaseLots px] := rfl
  refine ⟨?_, ?_, ?_⟩
  · intro hcov hwrap
    rw [htr, hfc, if_pos hshort, if_pos hcov, if_pos hwrap]
  · intro hcov hwrap
    rw [htr, hfc, if_pos hshort, if_pos hcov,
      if_neg (by rw [hwrap]; exact Bool.false_ne_true)]
  · intro hncov
    rw [htr, hfc, if_pos hshort, if_neg (not_le.mpr hncov)]

/-- Witness for the amended C8 at the concrete input cIn8. -/
theorem tradeIteration_wrap_fallback_witness :
    tradeIteration cIn8 = [Action.balanceCheck,
      Action.wrap (requiredBaseBalance cIn8 - cIn8.baseWalletBalance),
      Action.submit TradeSide.ask cIn8.numBaseLots (askPrice 1 0)] :=
  (tradeIteration_wrap_fallback cIn8 80 50 50 (askPrice 1 0) rfl rfl rfl
    (by norm_num [cIn8, cIn2, decideSignal])
    (by norm_num [cIn8, cIn2, calculateMinimumOrderVolume])
    (by norm_num [cIn8, cIn2]) (by norm_num [cIn8, cIn2])
    (by norm_num [cIn8, cIn2, requiredBaseBalance])).1
    (by norm_num [cIn8, cIn2, requiredBaseBalance]) rfl

end PhoenixBot
